import Mathlib

/-!
Verification development for the lumber-forecast inventory system.

The definitions below are a shallow embedding of the forecasting and
vendor-optimization core of the repository:

- src/backend/models/InventoryCount.js   (consumption history aggregation)
- the forecast service (generateForecast, generateSimplePredictions,
  getReorderRecommendations)
- the season helper (calculateDynamicMinimum, calculateTarget)
- src/backend/services/vendorOptimizer.js (optimizeBulkOrder,
  findVendorCombinations) and the Vendor model (getPriceForItem,
  findBestVendor)

JavaScript numbers are modelled as rationals; dates are modelled as
rational day counts (the source works in milliseconds and divides by
86400000 where it needs days).  Math.round(x) is floor(x + 1/2) in
JavaScript, Math.ceil is the integer ceiling.  JavaScript
Array.prototype.sort is a stable comparison sort; it is modelled by the
stable insertion sort sortedBy below.
-/

/-- Stable insertion of one element into a list: x goes in front of the
first element y with le x y, hence before later equal elements. -/
def insertSorted {α : Type} (le : α → α → Bool) (x : α) : List α → List α
  | [] => [x]
  | y :: ys => if le x y then x :: y :: ys else y :: insertSorted le x ys

/-- Stable insertion sort, modelling JavaScript Array.prototype.sort with
a comparator (V8 sort is stable). -/
def sortedBy {α : Type} (le : α → α → Bool) : List α → List α
  | [] => []
  | x :: xs => insertSorted le x (sortedBy le xs)

theorem insertSorted_perm {α : Type} (le : α → α → Bool) (x : α) :
    ∀ l : List α, List.Perm (insertSorted le x l) (x :: l)
  | [] => List.Perm.refl _
  | y :: ys => by
    simp only [insertSorted]
    split
    · exact List.Perm.refl _
    · exact (List.Perm.cons y (insertSorted_perm le x ys)).trans (List.Perm.swap x y ys)

theorem sortedBy_perm {α : Type} (le : α → α → Bool) :
    ∀ l : List α, List.Perm (sortedBy le l) l
  | [] => List.Perm.refl _
  | x :: xs =>
    (insertSorted_perm le x (sortedBy le xs)).trans (List.Perm.cons x (sortedBy_perm le xs))

theorem mem_insertSorted {α : Type} {le : α → α → Bool} {x z : α} {l : List α}
    (h : z ∈ insertSorted le x l) : z = x ∨ z ∈ l := by
  have := (insertSorted_perm le x l).mem_iff.mp h
  simpa using this

theorem pairwise_insertSorted {α : Type} {le : α → α → Bool}
    (htrans : ∀ a b c, le a b = true → le b c = true → le a c = true)
    (htot : ∀ a b, le a b = true ∨ le b a = true)
    (x : α) : ∀ l : List α, List.Pairwise (fun a b => le a b = true) l →
      List.Pairwise (fun a b => le a b = true) (insertSorted le x l)
  | [], _ => by simp [insertSorted]
  | y :: ys, h => by
    simp only [insertSorted]
    rcases List.pairwise_cons.mp h with ⟨hy, hys⟩
    by_cases hxy : le x y = true
    · simp only [hxy, if_true]
      refine List.pairwise_cons.mpr ⟨?_, h⟩
      intro z hz
      rcases List.mem_cons.mp hz with rfl | hz
      · exact hxy
      · exact htrans x y z hxy (hy z hz)
    · simp only [hxy, if_false]
      refine List.pairwise_cons.mpr ⟨?_, pairwise_insertSorted htrans htot x ys hys⟩
      intro z hz
      rcases mem_insertSorted hz with rfl | hz
      · rcases htot z y with hc | hc
        · exact absurd hc hxy
        · exact hc
      · exact hy z hz

theorem sortedBy_pairwise {α : Type} {le : α → α → Bool}
    (htrans : ∀ a b c, le a b = true → le b c = true → le a c = true)
    (htot : ∀ a b, le a b = true ∨ le b a = true) :
    ∀ l : List α, List.Pairwise (fun a b => le a b = true) (sortedBy le l)
  | [] => by simp [sortedBy]
  | x :: xs => pairwise_insertSorted htrans htot x _ (sortedBy_pairwise htrans htot xs)

theorem sortedBy_head_min {α : Type} {le : α → α → Bool}
    (htrans : ∀ a b c, le a b = true → le b c = true → le a c = true)
    (htot : ∀ a b, le a b = true ∨ le b a = true)
    {l : List α} (hne : l ≠ []) :
    ∃ b t, sortedBy le l = b :: t ∧ b ∈ l ∧ ∀ y ∈ l, le b y = true := by
  cases hs : sortedBy le l with
  | nil =>
    exact absurd (List.Perm.eq_nil ((sortedBy_perm le l).symm.trans (by rw [hs]))) hne
  | cons b t =>
    refine ⟨b, t, rfl, ?_, ?_⟩
    · exact (sortedBy_perm le l).mem_iff.mp (by rw [hs]; exact List.mem_cons_self b t)
    · intro y hy
      have hy' : y ∈ b :: t := by
        rw [← hs]
        exact (sortedBy_perm le l).mem_iff.mpr hy
      rcases List.mem_cons.mp hy' with rfl | hy'
      · rcases htot y y with hc | hc <;> exact hc
      · have hp := sortedBy_pairwise htrans htot l
        rw [hs] at hp
        exact (List.pairwise_cons.mp hp).1 y hy'

/-- Math.max over a list of numbers; the callers below only use it on
non-empty lists (JavaScript would give -Infinity on an empty spread). -/
def listMax : List ℚ → ℚ
  | [] => 0
  | x :: xs => xs.foldl max x

theorem le_foldl_max (l : List ℚ) : ∀ init : ℚ, init ≤ l.foldl max init := by
  induction l with
  | nil => intro init; simp
  | cons x xs ih =>
    intro init
    calc init ≤ max init x := le_max_left _ _
    _ ≤ xs.foldl max (max init x) := ih _

theorem mem_le_foldl_max {l : List ℚ} {y : ℚ} (h : y ∈ l) :
    ∀ init : ℚ, y ≤ l.foldl max init := by
  induction l with
  | nil => cases h
  | cons x xs ih =>
    intro init
    rcases List.mem_cons.mp h with rfl | h
    · calc y ≤ max init y := le_max_right _ _
      _ ≤ xs.foldl max (max init y) := le_foldl_max _ _
    · exact ih h _

theorem le_listMax {l : List ℚ} {y : ℚ} (h : y ∈ l) : y ≤ listMax l := by
  cases l with
  | nil => cases h
  | cons x xs =>
    rcases List.mem_cons.mp h with rfl | h
    · exact le_foldl_max xs y
    · exact mem_le_foldl_max h x

/-- JavaScript Math.round(x * 100) / 100: round to two decimals, halves
toward positive infinity. -/
def jsRound2 (x : ℚ) : ℚ := ((⌊x * 100 + 1/2⌋ : ℤ) : ℚ) / 100

/-- JavaScript Math.ceil(x * 100) / 100: round UP to two decimals. -/
def ceil2 (x : ℚ) : ℚ := ((⌈x * 100⌉ : ℤ) : ℚ) / 100

theorem jsRound2_mono {x y : ℚ} (h : x ≤ y) : jsRound2 x ≤ jsRound2 y := by
  unfold jsRound2
  have hf : (⌊x * 100 + 1/2⌋ : ℤ) ≤ ⌊y * 100 + 1/2⌋ := by
    apply Int.floor_le_floor
    nlinarith
  have : ((⌊x * 100 + 1/2⌋ : ℤ) : ℚ) ≤ ((⌊y * 100 + 1/2⌋ : ℤ) : ℚ) := by exact_mod_cast hf
  linarith

theorem jsRound2_zero : jsRound2 0 = 0 := by
  unfold jsRound2
  norm_num

theorem jsRound2_nonneg {x : ℚ} (h : 0 ≤ x) : 0 ≤ jsRound2 x := by
  have := jsRound2_mono h
  rwa [jsRound2_zero] at this

/-- JavaScript numeric a || b (0 is falsy, any other number truthy). -/
def jsOrQ (a b : ℚ) : ℚ := if a = 0 then b else a

theorem ceil_eval {q : ℚ} {n : ℤ} (h₁ : (n : ℚ) - 1 < q) (h₂ : q ≤ (n : ℚ)) :
    (⌈q⌉ : ℤ) = n := by
  rw [Int.ceil_eq_iff]
  exact ⟨h₁, h₂⟩

/-!
Consumption history aggregation, from
src/backend/models/InventoryCount.js (getConsumptionHistory,
calculateAvgConsumption).  A stock count carries the counted amount and
the count date (in days); weekNumber and year are carried along as in
the schema.
-/

structure StockCount where
  count : ℚ
  countDate : ℚ
  weekNumber : ℕ
  year : ℕ
deriving DecidableEq

structure ConsumptionSample where
  week : ℕ
  year : ℕ
  consumption : ℚ
  dailyRate : ℚ
  date : ℚ
deriving DecidableEq

/-- Consecutive pairs (l[i-1], l[i]) of a list, i = 1 .. length-1. -/
def consecutivePairs {α : Type} (l : List α) : List (α × α) := l.zip l.tail

def byCountDate (a b : StockCount) : Bool := a.countDate ≤ b.countDate

/-- InventoryCount.getConsumptionHistory(itemId, weeks): counts within the
lookback window, sorted by countDate ascending, turned into one weekly
consumption sample per consecutive pair with a positive day gap.  The
source computes daysBetween in milliseconds divided by 86400000; dates
here are already in days. -/
def getConsumptionHistory (counts : List StockCount) (now : ℚ) (weeks : ℚ) :
    List ConsumptionSample :=
  let startDate := now - weeks * 7
  let sorted := sortedBy byCountDate (counts.filter (fun c => startDate ≤ c.countDate))
  (consecutivePairs sorted).filterMap (fun pc =>
    let consumption := pc.1.count - pc.2.count
    let daysBetween := pc.2.countDate - pc.1.countDate
    if 0 < daysBetween then
      some { week := pc.2.weekNumber, year := pc.2.year,
             consumption := if 0 < consumption then consumption else 0,
             dailyRate := if 0 < consumption then consumption / daysBetween else 0,
             date := pc.2.countDate }
    else none)

/-- InventoryCount.calculateAvgConsumption(itemId): (daily, weekly)
averages over the 12-week consumption history, rounded to two decimals;
(0, 0) when the history is empty. -/
def calculateAvgConsumption (counts : List StockCount) (now : ℚ) : ℚ × ℚ :=
  let history := getConsumptionHistory counts now 12
  if history.length = 0 then (0, 0)
  else
    let totalConsumption := (history.map (fun h => h.consumption)).sum
    let avgWeekly := totalConsumption / history.length
    let avgDaily := avgWeekly / 7
    (jsRound2 avgDaily, jsRound2 avgWeekly)

/-- The consumption samples as the specification words them: one sample
per consecutive count pair with positive time gap, with
consumption = max(0, previousCount - currentCount) and
dailyRate = consumption / daysBetween.  Stated over an already
windowed-and-sorted count list; used to compare against
getConsumptionHistory. -/
def specConsumptionSamples (sorted : List StockCount) : List ConsumptionSample :=
  (consecutivePairs sorted).filterMap (fun pc =>
    let gap := pc.2.countDate - pc.1.countDate
    if 0 < gap then
      some { week := pc.2.weekNumber, year := pc.2.year,
             consumption := max 0 (pc.1.count - pc.2.count),
             dailyRate := max 0 (pc.1.count - pc.2.count) / gap,
             date := pc.2.countDate }
    else none)

/-!
Season helper, from the seasonHelper utility (calculateDynamicMinimum,
calculateTarget).  Whether the current date falls in the configured busy
season (getCurrentSeason() returning "summer") is passed in as a
boolean; the days-supply and multiplier parameters are passed explicitly
(the source reads them from the environment with defaults 30 and 1.5).
-/

/-- calculateDynamicMinimum(avgDailyConsumption, daysSupply): the base
days-of-supply demand, multiplied by 1.2 in the busy season, then
rounded UP to two decimals (Math.ceil(minimum * 100) / 100). -/
def calculateDynamicMinimum (avgDailyConsumption : ℚ) (baseDaysSupply : ℚ)
    (busy : Bool) : ℚ :=
  let minimum := avgDailyConsumption * baseDaysSupply
  let minimum := if busy then minimum * (12/10) else minimum
  ceil2 minimum

/-- calculateTarget(minimum, multiplier): minimum times the target
multiplier, rounded UP to two decimals. -/
def calculateTarget (minimum : ℚ) (targetMultiplier : ℚ) : ℚ :=
  ceil2 (minimum * targetMultiplier)

/-!
Forecast service (generateForecast, generateSimplePredictions,
getReorderRecommendations).  The trained TensorFlow model is abstracted
as a function from a feature window to the normalized predicted value
(globalModel.predict followed by dataSync()[0]); the per-item
normalization table lookup itemNormParams.get is an Option parameter.
The calendar functions getSeasonIndicator and getNormalizedDayOfYear are
abstracted as functions of the date, and whether the current date is in
the busy season (used by calculateDynamicMinimum) is a boolean.
CONFIG.SEQUENCE_LENGTH is its default 12; daysAhead is an integer (the
HTTP layer parses it with parseInt).
-/

structure InventoryItem where
  id : ℕ
  currentStock : ℚ
  avgLeadTime : ℚ
deriving DecidableEq

/-- One feature vector: (normalized consumption, season indicator,
normalized day of year). -/
abbrev FeatureVec := ℚ × ℚ × ℚ

abbrev Predictor := List FeatureVec → ℚ

structure ForecastEntry where
  week : ℕ
  date : ℚ
  predictedDemand : ℚ
  cumulativeDemand : ℚ
  projectedStock : Option ℚ
deriving DecidableEq

structure ForecastSummary where
  totalPredictedDemand : ℚ
  avgDailyDemand : ℚ
  daysUntilStockout : Option ℤ
  recommendedMin : ℚ
  recommendedTarget : ℚ
  stockoutDate : Option ℚ
deriving DecidableEq

structure Forecast where
  method : String
  currentStock : ℚ
  predictions : List ForecastEntry
  summary : ForecastSummary
deriving DecidableEq

/-- Math.ceil(daysAhead / 7) for a natural daysAhead. -/
def weeksToPredict (daysAhead : ℕ) : ℕ := (daysAhead + 6) / 7

/-- The loop body of generateSimplePredictions: for week = 1 .. weeks the
date advances 7 days, the constant weekly demand avgDaily*7 is added to
the running cumulative, and the entry is pushed (the fallback entries
carry no projectedStock field). -/
def simpleLoop (avgDaily : ℚ) : ℕ → ℚ → ℚ → ℕ → List ForecastEntry
  | 0, _, _, _ => []
  | n + 1, date, cumulative, week =>
    let date' := date + 7
    let weeklyDemand := avgDaily * 7
    let cumulative' := cumulative + weeklyDemand
    { week := week, date := date',
      predictedDemand := jsRound2 weeklyDemand,
      cumulativeDemand := jsRound2 cumulative',
      projectedStock := none } :: simpleLoop avgDaily n date' cumulative' (week + 1)

/-- generateSimplePredictions(avgDaily, daysAhead). -/
def generateSimplePredictions (avgDaily : ℚ) (daysAhead : ℕ) (now : ℚ) :
    List ForecastEntry :=
  simpleLoop avgDaily (weeksToPredict daysAhead) now 0 1

/-- The iterative prediction loop of generateForecast's model path: each
week the predictor is run on the current window, the denormalized value
is accumulated, an entry is pushed, and the window slides (shift, then
push the new feature built from the predicted value and the new date).
Returns the entries together with the final running cumulativeDemand. -/
def runWeeks (predict : Predictor) (season doy : ℚ → ℚ) (maxC stock : ℚ) :
    ℕ → ℚ → List FeatureVec → ℚ → ℕ → List ForecastEntry × ℚ
  | 0, _, _, cumulative, _ => ([], cumulative)
  | n + 1, date, seq, cumulative, week =>
    let predictedValue := predict seq * maxC
    let date' := date + 7
    let cumulative' := cumulative + predictedValue
    let entry : ForecastEntry :=
      { week := week + 1, date := date',
        predictedDemand := jsRound2 predictedValue,
        cumulativeDemand := jsRound2 cumulative',
        projectedStock := some (jsRound2 (stock - cumulative')) }
    let seq' := seq.tail ++ [(predictedValue / maxC, season date', doy date')]
    let rest := runWeeks predict season doy maxC stock n date' seq' cumulative' (week + 1)
    (entry :: rest.1, rest.2)

/-- history.slice(-n): the last n elements. -/
def takeLast {α : Type} (n : ℕ) (l : List α) : List α := l.drop (l.length - n)

/-- The fallback (simple_average) branch of generateForecast: used when
there is not enough history or no trained model.  Its summary has no
stockoutDate field. -/
def fallbackForecast (item : InventoryItem) (counts : List StockCount)
    (daysAhead : ℕ) (now : ℚ) (busy : Bool) : Forecast :=
  let avgConsumption := calculateAvgConsumption counts now
  let avgDaily := avgConsumption.1
  let totalPredicted := avgDaily * daysAhead
  { method := "simple_average",
    currentStock := item.currentStock,
    predictions := generateSimplePredictions avgDaily daysAhead now,
    summary :=
      { totalPredictedDemand := jsRound2 totalPredicted,
        avgDailyDemand := avgDaily,
        daysUntilStockout :=
          if 0 < avgDaily then some ⌊item.currentStock / avgDaily⌋ else none,
        recommendedMin := calculateDynamicMinimum avgDaily 30 busy,
        recommendedTarget :=
          calculateTarget (calculateDynamicMinimum avgDaily 30 busy) (3/2),
        stockoutDate := none } }

/-- The normalization scalar of the model path:
itemNormParams.get(itemId) || Math.max(...consumptions) || 1. -/
def modelMaxConsumption (normParam : Option ℚ) (history : List ConsumptionSample) : ℚ :=
  jsOrQ (normParam.getD 0) (jsOrQ (listMax (history.map (fun h => h.consumption))) 1)

/-- generateForecast(itemId, daysAhead): the model path when a model
exists and the 12-week history is long enough, the simple-average
fallback otherwise. -/
def generateForecast (item : InventoryItem) (counts : List StockCount)
    (model : Option Predictor) (normParam : Option ℚ) (daysAhead : ℕ)
    (now : ℚ) (busy : Bool) (season doy : ℚ → ℚ) : Forecast :=
  let history := getConsumptionHistory counts now 12
  match model with
  | none => fallbackForecast item counts daysAhead now busy
  | some predict =>
    if history.length < 12 then fallbackForecast item counts daysAhead now busy
    else
      let maxC := modelMaxConsumption normParam history
      let inputFeatures := (takeLast 12 history).map
        (fun h => ((h.consumption / maxC, season h.date, doy h.date) : FeatureVec))
      let result := runWeeks predict season doy maxC item.currentStock
        (weeksToPredict daysAhead) now inputFeatures 0 0
      let cumulativeDemand := result.2
      let avgDailyDemand := cumulativeDemand / daysAhead
      let daysUntilStockout : Option ℤ :=
        if 0 < avgDailyDemand then some ⌊item.currentStock / avgDailyDemand⌋ else none
      { method := "lstm",
        currentStock := item.currentStock,
        predictions := result.1,
        summary :=
          { totalPredictedDemand := jsRound2 cumulativeDemand,
            avgDailyDemand := jsRound2 avgDailyDemand,
            daysUntilStockout := daysUntilStockout,
            recommendedMin := calculateDynamicMinimum avgDailyDemand 30 busy,
            recommendedTarget :=
              calculateTarget (calculateDynamicMinimum avgDailyDemand 30 busy) (3/2),
            stockoutDate :=
              match daysUntilStockout with
              | some d => if d = 0 then none else some (now + (d : ℚ))
              | none => none } }

/-- The raw (unrounded) average daily demand that generateForecast
divides by: cumulativeDemand / daysAhead on the model path and
calculateAvgConsumption's rounded daily average on the fallback path.
Follows exactly the branch structure of generateForecast. -/
def forecastRawAvgDemand (item : InventoryItem) (counts : List StockCount)
    (model : Option Predictor) (normParam : Option ℚ) (daysAhead : ℕ)
    (now : ℚ) (season doy : ℚ → ℚ) : ℚ :=
  let history := getConsumptionHistory counts now 12
  match model with
  | none => (calculateAvgConsumption counts now).1
  | some predict =>
    if history.length < 12 then (calculateAvgConsumption counts now).1
    else
      let maxC := modelMaxConsumption normParam history
      let inputFeatures := (takeLast 12 history).map
        (fun h => ((h.consumption / maxC, season h.date, doy h.date) : FeatureVec))
      (runWeeks predict season doy maxC item.currentStock
        (weeksToPredict daysAhead) now inputFeatures 0 0).2 / daysAhead

/-!
Reorder recommender (getReorderRecommendations): for each active item it
computes the item's forecast and keeps the item when daysUntilStockout
is not null and at most leadTime + 5, where
leadTime = item.avgLeadTime || 7.  The per-item forecast computation is
abstracted as a function from the item to its forecast summary.
-/

structure ReorderRec where
  itemId : ℕ
  urgency : String
  daysUntilStockout : ℤ
  leadTime : ℚ
  recommendedOrderQty : ℤ
  stockoutDate : Option ℚ
deriving DecidableEq

/-- The body of getReorderRecommendations' loop for one item: the pushed
recommendation, or none when the item does not qualify. -/
def reorderRecFor (forecastOf : InventoryItem → ForecastSummary)
    (item : InventoryItem) : Option ReorderRec :=
  let s := forecastOf item
  let leadTime := jsOrQ item.avgLeadTime 7
  match s.daysUntilStockout with
  | none => none
  | some d =>
    if (d : ℚ) ≤ leadTime + 5 then
      some { itemId := item.id,
             urgency := if (d : ℚ) ≤ leadTime then ("critical") else ("high"),
             daysUntilStockout := d,
             leadTime := leadTime,
             recommendedOrderQty := ⌈s.recommendedTarget - item.currentStock⌉,
             stockoutDate := s.stockoutDate }
    else none

/-- getReorderRecommendations(): the qualifying recommendations, sorted
ascending by daysUntilStockout. -/
def getReorderRecommendations (items : List InventoryItem)
    (forecastOf : InventoryItem → ForecastSummary) : List ReorderRec :=
  sortedBy (fun a b => a.daysUntilStockout ≤ b.daysUntilStockout)
    (items.filterMap (reorderRecFor forecastOf))

/-- The per-item recommendation rule as the specification words it:
include exactly when daysUntilStockout is not null and at most
leadTimeDays + 5; urgency critical iff daysUntilStockout is at most
leadTimeDays and high otherwise; recommendedOrderQuantity is
ceil(recommendedTarget - currentStock) with no clamping. -/
def specReorderRecFor (forecastOf : InventoryItem → ForecastSummary)
    (item : InventoryItem) : Option ReorderRec :=
  let s := forecastOf item
  let leadTime := jsOrQ item.avgLeadTime 7
  match s.daysUntilStockout with
  | none => none
  | some d =>
    if (d : ℚ) ≤ leadTime + 5 then
      some { itemId := item.id,
             urgency := if (d : ℚ) ≤ leadTime then ("critical") else ("high"),
             daysUntilStockout := d,
             leadTime := leadTime,
             recommendedOrderQty := ⌈s.recommendedTarget - item.currentStock⌉,
             stockoutDate := s.stockoutDate }
    else none

/-!
Vendor model and optimizer, from the Vendor schema (getPriceForItem,
findBestVendor) and src/backend/services/vendorOptimizer.js
(optimizeBulkOrder, findVendorCombinations).
-/

structure PriceTier where
  item : ℕ
  price : ℚ
  minQuantity : ℚ
  expirationDate : Option ℚ
deriving DecidableEq

structure VendorMetrics where
  avgLeadTime : ℚ
  onTimeDeliveryRate : ℚ
deriving DecidableEq

structure Vendor where
  id : ℕ
  name : String
  isActive : Bool
  prices : List PriceTier
  metrics : VendorMetrics
  freeShippingMinimum : ℚ
deriving DecidableEq

/-- The valid price tiers of a vendor for an item at a quantity: the
item matches, minQuantity is at most the quantity, and the tier is not
expired as of now. -/
def validPricesFor (v : Vendor) (itemId : ℕ) (quantity : ℚ) (now : ℚ) :
    List PriceTier :=
  v.prices.filter (fun p =>
    p.item == itemId && decide (p.minQuantity ≤ quantity) &&
      (match p.expirationDate with
       | none => true
       | some e => decide (now ≤ e)))

/-- Vendor.getPriceForItem(itemId, quantity): null when no tier is
valid; otherwise the valid tiers are sorted by minQuantity descending
and the first (best-matching volume tier) is returned.
Vendor.findBestVendor inlines the identical filter-sort-take logic. -/
def bestTier (v : Vendor) (itemId : ℕ) (quantity : ℚ) (now : ℚ) :
    Option PriceTier :=
  match sortedBy (fun a b => b.minQuantity ≤ a.minQuantity)
      (validPricesFor v itemId quantity now) with
  | [] => none
  | t :: _ => some t

structure VendorOption where
  vendor : Vendor
  price : ℚ
  totalCost : ℚ
  leadTime : ℚ
  reliability : ℚ
  score : ℚ
deriving DecidableEq

/-- The candidate options of findBestVendor: one per active vendor with
at least one valid tier; vendors with no valid price are skipped
entirely. -/
def candidateOptions (vendors : List Vendor) (itemId : ℕ) (quantity : ℚ)
    (now : ℚ) : List VendorOption :=
  (vendors.filter (fun v => v.isActive)).filterMap (fun v =>
    match bestTier v itemId quantity now with
    | none => none
    | some t =>
      some { vendor := v, price := t.price, totalCost := t.price * quantity,
             leadTime := v.metrics.avgLeadTime,
             reliability := v.metrics.onTimeDeliveryRate, score := 0 })

/-- The fixed weight triple (price, speed, reliability) selected by the
preference profile. -/
def scoreWeights (preference : String) : ℚ × ℚ × ℚ :=
  if preference = ("price") then (6/10, 2/10, 2/10)
  else if preference = ("speed") then (2/10, 6/10, 2/10)
  else (33/100, 33/100, 34/100)

/-- Scoring one candidate against the candidate set's maxima. -/
def scoreOption (preference : String) (maxPrice maxLeadTime : ℚ)
    (o : VendorOption) : VendorOption :=
  let priceScore := 1 - o.price / maxPrice
  let speedScore := 1 - o.leadTime / maxLeadTime
  let reliabilityScore := o.reliability / 100
  let w := scoreWeights preference
  { o with score := priceScore * w.1 + speedScore * w.2.1 + reliabilityScore * w.2.2 }

/-- Vendor.findBestVendor(itemId, quantity, preference): null when no
active vendor has a valid tier, otherwise the scored candidates sorted
by score descending. -/
def findBestVendor (vendors : List Vendor) (itemId : ℕ) (quantity : ℚ)
    (preference : String) (now : ℚ) : Option (List VendorOption) :=
  let options := candidateOptions vendors itemId quantity now
  if options.isEmpty then none
  else
    let maxPrice := listMax (options.map (fun o => o.price))
    let maxLeadTime := listMax (options.map (fun o => o.leadTime))
    let scored := options.map (scoreOption preference maxPrice maxLeadTime)
    some (sortedBy (fun a b => b.score ≤ a.score) scored)

structure ItemQty where
  itemId : ℕ
  quantity : ℚ
deriving DecidableEq

structure CoverageOption where
  vendorId : ℕ
  vendorName : String
  itemPrices : List (ℕ × ℚ × ℚ)
  totalCost : ℚ
  avgLeadTime : ℚ
  reliability : ℚ
  freeShipping : Bool
  score : ℚ
deriving DecidableEq

structure SplitVendorOrder where
  vendorId : ℕ
  vendorName : String
  items : List (ℕ × ℚ × ℚ × ℚ)
  totalCost : ℚ
deriving DecidableEq

structure Assignment where
  itemId : ℕ
  vendorName : String
  price : ℚ
deriving DecidableEq

/-- The result record of optimizeBulkOrder / findVendorCombinations.
Fields absent from a given return statement of the source are none. -/
structure BulkOrderResult where
  preference : String
  singleVendorOptions : List CoverageOption
  recommendation : Option CoverageOption
  splitOrderRequired : Option Bool
  splitOrderOptions : Option (List SplitVendorOrder)
  unsourceable : Option (List ℕ)
  error : Option String
  totalCost : Option ℚ
  assignments : Option (List Assignment)
deriving DecidableEq

/-- The inner loop of optimizeBulkOrder's coverage check: the per-item
(itemId, unitPrice, subtotal) list for one vendor, or none as soon as
one item has no valid price (canSupplyAll = false). -/
def vendorItemPrices (v : Vendor) (now : ℚ) : List ItemQty → Option (List (ℕ × ℚ × ℚ))
  | [] => some []
  | it :: rest =>
    match bestTier v it.itemId it.quantity now with
    | none => none
    | some t =>
      match vendorItemPrices v now rest with
      | none => none
      | some ps => some ((it.itemId, t.price, t.price * it.quantity) :: ps)

/-- One vendor's full-coverage entry, when it can supply every item. -/
def coverageFor (v : Vendor) (items : List ItemQty) (now : ℚ) :
    Option CoverageOption :=
  (vendorItemPrices v now items).map (fun ps =>
    let totalCost := (ps.map (fun p => p.2.2)).sum
    { vendorId := v.id, vendorName := v.name, itemPrices := ps,
      totalCost := totalCost,
      avgLeadTime := v.metrics.avgLeadTime,
      reliability := v.metrics.onTimeDeliveryRate,
      freeShipping := v.freeShippingMinimum ≤ totalCost,
      score := 0 })

/-- The full-coverage candidate set: every active vendor that has a
valid price tier for every requested item at its requested quantity. -/
def vendorCoverage (vendors : List Vendor) (items : List ItemQty) (now : ℚ) :
    List CoverageOption :=
  (vendors.filter (fun v => v.isActive)).filterMap (fun v => coverageFor v items now)

/-- Scoring a full-coverage candidate with the same three-factor
weighting as findBestVendor, normalized against the full-coverage set's
max cost and lead time. -/
def scoreCoverage (preference : String) (maxCost maxLeadTime : ℚ)
    (c : CoverageOption) : CoverageOption :=
  let priceScore := 1 - c.totalCost / maxCost
  let speedScore := 1 - c.avgLeadTime / maxLeadTime
  let reliabilityScore := c.reliability / 100
  let w := scoreWeights preference
  { c with score := priceScore * w.1 + speedScore * w.2.1 + reliabilityScore * w.2.2 }

/-- The vendors able to supply one item (findVendorCombinations'
itemVendorMap entry), in vendor-list order. -/
structure EligibleVendor where
  vendorId : ℕ
  vendorName : String
  price : ℚ
  leadTime : ℚ
deriving DecidableEq

def eligibleVendorsFor (vendors : List Vendor) (it : ItemQty) (now : ℚ) :
    List EligibleVendor :=
  vendors.filterMap (fun v =>
    match bestTier v it.itemId it.quantity now with
    | none => none
    | some t =>
      some { vendorId := v.id, vendorName := v.name, price := t.price,
             leadTime := v.metrics.avgLeadTime })

/-- The preference-dependent sort of findVendorCombinations: ascending
by price for "price", ascending by lead time for "speed", and NO sort
otherwise (the options stay in vendor-list order). -/
def sortOptions (preference : String) (options : List EligibleVendor) :
    List EligibleVendor :=
  if preference = ("price") then sortedBy (fun a b => a.price ≤ b.price) options
  else if preference = ("speed") then sortedBy (fun a b => a.leadTime ≤ b.leadTime) options
  else options

/-- options[0] after the preference-dependent sort. -/
def firstChoice (preference : String) (options : List EligibleVendor) :
    Option EligibleVendor :=
  (sortOptions preference options).head?

/-- Adding one item's chosen vendor to the accumulated per-vendor
sub-orders (the vendorOrders map, which preserves insertion order). -/
def addToOrders (orders : List SplitVendorOrder) (best : EligibleVendor)
    (it : ItemQty) : List SplitVendorOrder :=
  let itemCost := best.price * it.quantity
  let entry := (it.itemId, it.quantity, best.price, itemCost)
  if orders.any (fun o => o.vendorId == best.vendorId) then
    orders.map (fun o =>
      if o.vendorId == best.vendorId then
        { o with items := o.items ++ [entry], totalCost := o.totalCost + itemCost }
      else o)
  else
    orders ++ [{ vendorId := best.vendorId, vendorName := best.vendorName,
                 items := [entry], totalCost := itemCost }]

/-- findVendorCombinations(items, vendors, preference): the split-order
fallback.  When some item has no eligible vendor the whole operation
fails with an unsourceable report (and no splitOrderRequired field);
otherwise each item is independently assigned options[0] after the
preference-dependent sort, grouped by vendor. -/
def findVendorCombinations (items : List ItemQty) (vendors : List Vendor)
    (preference : String) (now : ℚ) : BulkOrderResult :=
  let unsourceable := items.filter
    (fun it => (eligibleVendorsFor vendors it now).isEmpty)
  if unsourceable.isEmpty then
    let assignedPairs := items.filterMap (fun it =>
      (firstChoice preference (eligibleVendorsFor vendors it now)).map
        (fun best => (it, best)))
    let vendorOrders := assignedPairs.foldl
      (fun orders p => addToOrders orders p.2 p.1) []
    let assignments := assignedPairs.map (fun p =>
      ({ itemId := p.1.itemId, vendorName := p.2.vendorName,
         price := p.2.price } : Assignment))
    { preference := preference, singleVendorOptions := [],
      recommendation := none,
      splitOrderRequired := some true,
      splitOrderOptions := some vendorOrders,
      unsourceable := none, error := none,
      totalCost := some ((vendorOrders.map (fun vo => vo.totalCost)).sum),
      assignments := some assignments }
  else
    { preference := preference, singleVendorOptions := [],
      recommendation := none,
      splitOrderRequired := none,
      splitOrderOptions := some [],
      unsourceable := some (unsourceable.map (fun it => it.itemId)),
      error := some ("Some items cannot be sourced from any vendor"),
      totalCost := none, assignments := none }

/-- optimizeBulkOrder(items, preference): rank the full-coverage
candidates when at least one exists (splitOrderRequired = false and the
top-ranked candidate is the recommendation); otherwise fall back to
findVendorCombinations over the active vendors. -/
def optimizeBulkOrder (items : List ItemQty) (vendors : List Vendor)
    (preference : String) (now : ℚ) : BulkOrderResult :=
  let coverage := vendorCoverage vendors items now
  if coverage.isEmpty then
    findVendorCombinations items (vendors.filter (fun v => v.isActive)) preference now
  else
    let maxCost := listMax (coverage.map (fun c => c.totalCost))
    let maxLead := listMax (coverage.map (fun c => c.avgLeadTime))
    let scored := coverage.map (scoreCoverage preference maxCost maxLead)
    let ranked := sortedBy (fun a b => b.score ≤ a.score) scored
    { preference := preference,
      singleVendorOptions := ranked,
      recommendation := ranked.head?,
      splitOrderRequired := some false,
      splitOrderOptions := none, unsourceable := none, error := none,
      totalCost := none, assignments := none }

theorem consecutivePairs_eq_nil {α : Type} {l : List α} (h : l.length < 2) :
    consecutivePairs l = [] := by
  match l, h with
  | [], _ => rfl
  | [x], _ => rfl

/-- C5: for every date-ordered sequence of stock counts, the consumption
history aggregator emits exactly one sample per consecutive count pair
with positive day gap, with consumption = max(0, previous - current) and
dailyRate = consumption / daysBetween; fewer than two counts in the
lookback window yield an empty result. -/
theorem claim_C5 (counts : List StockCount) (now weeks : ℚ) :
    getConsumptionHistory counts now weeks
      = specConsumptionSamples
          (sortedBy byCountDate (counts.filter (fun c => now - weeks * 7 ≤ c.countDate)))
    ∧ ((counts.filter (fun c => now - weeks * 7 ≤ c.countDate)).length < 2 →
        getConsumptionHistory counts now weeks = []) := by
  constructor
  · unfold getConsumptionHistory specConsumptionSamples
    refine congrFun (congrArg List.filterMap (funext fun pc => ?_)) _
    by_cases hd : 0 < pc.2.countDate - pc.1.countDate
    · simp only [hd, if_true]
      by_cases hc : 0 < pc.1.count - pc.2.count
      · rw [if_pos hc, if_pos hc, max_eq_right hc.le]
      · rw [if_neg hc, if_neg hc, max_eq_left (le_of_not_lt hc), zero_div]
    · simp only [hd, if_false]
  · intro h
    have hlen : (sortedBy byCountDate
        (counts.filter (fun c => now - weeks * 7 ≤ c.countDate))).length < 2 := by
      rw [(sortedBy_perm byCountDate
        (counts.filter (fun c => now - weeks * 7 ≤ c.countDate))).length_eq]
      exact h
    simp only [getConsumptionHistory]
    rw [consecutivePairs_eq_nil hlen, List.filterMap_nil]

theorem claim_C5_witness :
    (([⟨10, 0, 1, 2020⟩] : List StockCount).filter
        (fun c => (0 : ℚ) - 12 * 7 ≤ c.countDate)).length < 2
    ∧ getConsumptionHistory [⟨10, 0, 1, 2020⟩] 0 12 = [] :=
  ⟨by norm_num [List.filter],
   (claim_C5 [⟨10, 0, 1, 2020⟩] 0 12).2 (by norm_num [List.filter])⟩

theorem generateForecast_summary_raw (item : InventoryItem)
    (counts : List StockCount) (model : Option Predictor) (normParam : Option ℚ)
    (daysAhead : ℕ) (now : ℚ) (busy : Bool) (season doy : ℚ → ℚ) :
    (generateForecast item counts model normParam daysAhead now busy season doy).summary.daysUntilStockout
      = (if 0 < forecastRawAvgDemand item counts model normParam daysAhead now season doy
         then some ⌊item.currentStock / forecastRawAvgDemand item counts model normParam daysAhead now season doy⌋
         else none)
    ∧ (generateForecast item counts model normParam daysAhead now busy season doy).summary.recommendedMin
      = calculateDynamicMinimum (forecastRawAvgDemand item counts model normParam daysAhead now season doy) 30 busy
    ∧ (generateForecast item counts model normParam daysAhead now busy season doy).summary.recommendedTarget
      = calculateTarget (calculateDynamicMinimum (forecastRawAvgDemand item counts model normParam daysAhead now season doy) 30 busy) (3/2) := by
  cases model with
  | none => exact ⟨rfl, rfl, rfl⟩
  | some predict =>
    by_cases h : (getConsumptionHistory counts now 12).length < 12
    · refine ⟨?_, ?_, ?_⟩ <;>
        simp only [generateForecast, forecastRawAvgDemand, if_pos h] <;> rfl
    · refine ⟨?_, ?_, ?_⟩ <;>
        simp only [generateForecast, forecastRawAvgDemand, if_neg h] <;> rfl

/-- C6: generateForecast's summary daysUntilStockout is
floor(currentStock / avgDailyDemand) exactly when the raw average daily
demand is positive and null otherwise, on both the model path and the
fallback path; the division is guarded by the positivity test. -/
theorem claim_C6 (item : InventoryItem) (counts : List StockCount)
    (model : Option Predictor) (normParam : Option ℚ) (daysAhead : ℕ)
    (now : ℚ) (busy : Bool) (season doy : ℚ → ℚ) :
    (generateForecast item counts model normParam daysAhead now busy season doy).summary.daysUntilStockout
      = (if 0 < forecastRawAvgDemand item counts model normParam daysAhead now season doy
         then some ⌊item.currentStock / forecastRawAvgDemand item counts model normParam daysAhead now season doy⌋
         else none) :=
  (generateForecast_summary_raw item counts model normParam daysAhead now busy season doy).1

/-- C7 (corrected): recommendedMinimum is the busy-season-buffered
days-of-supply demand rounded UP TO TWO DECIMALS (not to an integer),
and recommendedTarget is recommendedMinimum times the multiplier rounded
up to two decimals; generateForecast wires these with the raw average
demand, baseDaysSupply 30 and multiplier 1.5. -/
theorem claim_C7 (avgDaily baseDays : ℚ) (busy : Bool) (minimum mult : ℚ)
    (item : InventoryItem) (counts : List StockCount) (model : Option Predictor)
    (normParam : Option ℚ) (daysAhead : ℕ) (now : ℚ) (season doy : ℚ → ℚ) :
    calculateDynamicMinimum avgDaily baseDays busy
      = ceil2 (avgDaily * baseDays * (if busy then 12/10 else 1))
    ∧ calculateTarget minimum mult = ceil2 (minimum * mult)
    ∧ (generateForecast item counts model normParam daysAhead now busy season doy).summary.recommendedMin
      = calculateDynamicMinimum (forecastRawAvgDemand item counts model normParam daysAhead now season doy) 30 busy
    ∧ (generateForecast item counts model normParam daysAhead now busy season doy).summary.recommendedTarget
      = calculateTarget (calculateDynamicMinimum (forecastRawAvgDemand item counts model normParam daysAhead now season doy) 30 busy) (3/2) := by
  refine ⟨?_, rfl,
    (generateForecast_summary_raw item counts model normParam daysAhead now busy season doy).2.1,
    (generateForecast_summary_raw item counts model normParam daysAhead now busy season doy).2.2⟩
  unfold calculateDynamicMinimum
  cases busy with
  | false => simp [mul_one]
  | true => simp [mul_assoc]

/-- C7 counterexample: at average daily demand 0.05 (base days-supply 30,
slow season) the code returns 1.5, not the integer ceiling 2 the claim
states: ceil-to-two-decimals is not ceil-to-integer. -/
theorem claim_C7_counterexample :
    ¬ (calculateDynamicMinimum (1/20) 30 false
        = ((⌈(1/20 : ℚ) * 30 * 1⌉ : ℤ) : ℚ)) := by
  have h1 : (⌈(1/20 : ℚ) * 30 * 1⌉ : ℤ) = 2 := ceil_eval (by norm_num) (by norm_num)
  have h2 : (⌈(1/20 : ℚ) * 30 * 100⌉ : ℤ) = 150 := ceil_eval (by norm_num) (by norm_num)
  unfold calculateDynamicMinimum ceil2
  rw [h1]
  norm_num [h2]

/-- C3: getReorderRecommendations returns exactly the qualifying items
(daysUntilStockout not null and at most leadTime + 5, urgency critical
iff at most leadTime, order quantity ceil(target - stock) unclamped, as
specReorderRecFor words it), sorted ascending by daysUntilStockout. -/
theorem claim_C3 (items : List InventoryItem)
    (forecastOf : InventoryItem → ForecastSummary) :
    List.Perm (getReorderRecommendations items forecastOf)
      (items.filterMap (reorderRecFor forecastOf))
    ∧ List.Pairwise (fun a b => a.daysUntilStockout ≤ b.daysUntilStockout)
        (getReorderRecommendations items forecastOf)
    ∧ ∀ item, reorderRecFor forecastOf item = specReorderRecFor forecastOf item := by
  refine ⟨sortedBy_perm _ _, ?_, fun item => rfl⟩
  have hp := @sortedBy_pairwise ReorderRec
    (fun a b => decide (a.daysUntilStockout ≤ b.daysUntilStockout))
    (fun a b c hab hbc => by
      simp only [decide_eq_true_eq] at hab hbc ⊢
      exact le_trans hab hbc)
    (fun a b => by
      simp only [decide_eq_true_eq]
      exact le_total a.daysUntilStockout b.daysUntilStockout)
    (items.filterMap (reorderRecFor forecastOf))
  exact hp.imp (fun h => of_decide_eq_true h)

theorem simpleLoop_length (avgDaily : ℚ) :
    ∀ (n : ℕ) (date cumulative : ℚ) (week : ℕ),
      (simpleLoop avgDaily n date cumulative week).length = n
  | 0, _, _, _ => rfl
  | n + 1, date, cumulative, week => by
    simp only [simpleLoop, List.length_cons]
    rw [simpleLoop_length avgDaily n]

theorem simpleLoop_weeks (avgDaily : ℚ) :
    ∀ (n : ℕ) (date cumulative : ℚ) (week : ℕ),
      (simpleLoop avgDaily n date cumulative week).map (fun e => e.week)
        = List.range' week n
  | 0, _, _, _ => rfl
  | n + 1, date, cumulative, week => by
    simp only [simpleLoop, List.map_cons]
    rw [simpleLoop_weeks avgDaily n]
    rfl

theorem simpleLoop_chain (avgDaily : ℚ) (h : 0 ≤ avgDaily) :
    ∀ (n : ℕ) (date cumulative : ℚ) (week : ℕ),
      List.Chain' (fun a b => a ≤ b)
        (jsRound2 cumulative ::
          (simpleLoop avgDaily n date cumulative week).map (fun e => e.cumulativeDemand))
  | 0, _, _, _ => List.chain'_singleton _
  | n + 1, date, cumulative, week => by
    simp only [simpleLoop, List.map_cons]
    refine List.chain'_cons.mpr ⟨?_, simpleLoop_chain avgDaily h n _ _ _⟩
    exact jsRound2_mono (by nlinarith)

theorem simpleLoop_demand_zero :
    ∀ (n : ℕ) (date cumulative : ℚ) (week : ℕ),
      ∀ e ∈ simpleLoop 0 n date cumulative week, e.predictedDemand = 0
  | 0, _, _, _ => by intro e he; cases he
  | n + 1, date, cumulative, week => by
    intro e he
    simp only [simpleLoop, List.mem_cons] at he
    rcases he with rfl | he
    · simpa using jsRound2_zero
    · exact simpleLoop_demand_zero n _ _ _ e he

theorem runWeeks_length (predict : Predictor) (season doy : ℚ → ℚ) (maxC stock : ℚ) :
    ∀ (n : ℕ) (date : ℚ) (seq : List FeatureVec) (cumulative : ℚ) (week : ℕ),
      (runWeeks predict season doy maxC stock n date seq cumulative week).1.length = n
  | 0, _, _, _, _ => rfl
  | n + 1, date, seq, cumulative, week => by
    simp only [runWeeks, List.length_cons]
    rw [runWeeks_length predict season doy maxC stock n]

theorem runWeeks_weeks (predict : Predictor) (season doy : ℚ → ℚ) (maxC stock : ℚ) :
    ∀ (n : ℕ) (date : ℚ) (seq : List FeatureVec) (cumulative : ℚ) (week : ℕ),
      (runWeeks predict season doy maxC stock n date seq cumulative week).1.map (fun e => e.week)
        = List.range' (week + 1) n
  | 0, _, _, _, _ => rfl
  | n + 1, date, seq, cumulative, week => by
    simp only [runWeeks, List.map_cons]
    rw [runWeeks_weeks predict season doy maxC stock n]
    rfl

theorem runWeeks_chain (predict : Predictor) (season doy : ℚ → ℚ) (maxC stock : ℚ)
    (hp : ∀ s, 0 ≤ predict s) (hm : 0 ≤ maxC) :
    ∀ (n : ℕ) (date : ℚ) (seq : List FeatureVec) (cumulative : ℚ) (week : ℕ),
      List.Chain' (fun a b => a ≤ b)
        (jsRound2 cumulative ::
          (runWeeks predict season doy maxC stock n date seq cumulative week).1.map
            (fun e => e.cumulativeDemand))
  | 0, _, _, _, _ => List.chain'_singleton _
  | n + 1, date, seq, cumulative, week => by
    simp only [runWeeks, List.map_cons]
    refine List.chain'_cons.mpr ⟨?_, runWeeks_chain predict season doy maxC stock hp hm n _ _ _ _⟩
    have := mul_nonneg (hp seq) hm
    exact jsRound2_mono (by linarith)

theorem getConsumptionHistory_nonneg {counts : List StockCount} {now weeks : ℚ}
    {h : ConsumptionSample} (hm : h ∈ getConsumptionHistory counts now weeks) :
    0 ≤ h.consumption := by
  simp only [getConsumptionHistory, List.mem_filterMap] at hm
  rcases hm with ⟨pc, _, hpc⟩
  by_cases hd : 0 < pc.2.countDate - pc.1.countDate
  · rw [if_pos hd] at hpc
    cases hpc
    show 0 ≤ if 0 < pc.1.count - pc.2.count then pc.1.count - pc.2.count else 0
    split
    next hcc => exact le_of_lt hcc
    next => exact le_refl 0
  · rw [if_neg hd] at hpc
    cases hpc

theorem calculateAvgConsumption_nonneg (counts : List StockCount) (now : ℚ) :
    0 ≤ (calculateAvgConsumption counts now).1 := by
  simp only [calculateAvgConsumption]
  by_cases h : (getConsumptionHistory counts now 12).length = 0
  · simp [h]
  · rw [if_neg h]
    apply jsRound2_nonneg
    apply div_nonneg _ (by norm_num)
    apply div_nonneg _ (by positivity)
    apply List.sum_nonneg
    intro x hx
    rcases List.mem_map.mp hx with ⟨s, hs, rfl⟩
    exact getConsumptionHistory_nonneg hs

theorem listMax_nonneg {l : List ℚ} (h : ∀ y ∈ l, 0 ≤ y) : 0 ≤ listMax l := by
  cases l with
  | nil => exact le_refl 0
  | cons x xs =>
    exact le_trans (h x (List.mem_cons_self x xs)) (le_foldl_max xs x)

theorem modelMaxConsumption_nonneg {normParam : Option ℚ}
    {history : List ConsumptionSample} (hn : 0 ≤ normParam.getD 0)
    (hh : ∀ s ∈ history, 0 ≤ s.consumption) :
    0 ≤ modelMaxConsumption normParam history := by
  unfold modelMaxConsumption jsOrQ
  have hmax : 0 ≤ listMax (history.map (fun h => h.consumption)) := by
    apply listMax_nonneg
    intro y hy
    rcases List.mem_map.mp hy with ⟨s, hs, rfl⟩
    exact hh s hs
  split
  · split
    · norm_num
    · exact hmax
  · exact hn

/-- C2 (amended): both forecast paths produce exactly ceil(daysAhead/7)
predictions whose week indices are 1, 2, ...; the cumulativeDemand
series is non-decreasing on the fallback path, and on the model path
whenever the model's predictions are non-negative — the code does not
clamp negative model outputs, so a model emitting negative values gives
a decreasing series (see the counterexample). -/
theorem claim_C2 (item : InventoryItem) (counts : List StockCount)
    (model : Option Predictor) (normParam : Option ℚ) (daysAhead : ℕ)
    (now : ℚ) (busy : Bool) (season doy : ℚ → ℚ) (hd : 1 ≤ daysAhead) :
    (generateForecast item counts model normParam daysAhead now busy season doy).predictions.length
      = (daysAhead + 6) / 7
    ∧ (generateForecast item counts model normParam daysAhead now busy season doy).predictions.map
        (fun e => e.week) = List.range' 1 ((daysAhead + 6) / 7)
    ∧ (model = none →
        List.Chain' (fun a b => a ≤ b)
          ((generateForecast item counts model normParam daysAhead now busy season doy).predictions.map
            (fun e => e.cumulativeDemand)))
    ∧ (∀ predict, model = some predict → (∀ s, 0 ≤ predict s) → 0 ≤ normParam.getD 0 →
        List.Chain' (fun a b => a ≤ b)
          ((generateForecast item counts model normParam daysAhead now busy season doy).predictions.map
            (fun e => e.cumulativeDemand))) := by
  have hfall : ∀ (av : ℚ), 0 ≤ av →
      List.Chain' (fun a b : ℚ => a ≤ b)
        ((generateSimplePredictions av daysAhead now).map (fun e => e.cumulativeDemand)) := by
    intro av hav
    have hc := simpleLoop_chain av hav (weeksToPredict daysAhead) now 0 1
    exact (List.chain'_cons'.mp hc).2
  cases model with
  | none =>
    refine ⟨?_, ?_, ?_, ?_⟩
    · exact simpleLoop_length _ _ _ _ _
    · exact simpleLoop_weeks _ _ _ _ _
    · intro _
      exact hfall _ (calculateAvgConsumption_nonneg counts now)
    · intro predict hpr
      exact Option.noConfusion hpr
  | some predict =>
    by_cases h : (getConsumptionHistory counts now 12).length < 12
    · refine ⟨?_, ?_, ?_, ?_⟩
      · simp only [generateForecast, if_pos h]
        exact simpleLoop_length _ _ _ _ _
      · simp only [generateForecast, if_pos h]
        exact simpleLoop_weeks _ _ _ _ _
      · intro hc
        exact Option.noConfusion hc
      · intro predict' hpr _ _
        simp only [generateForecast, if_pos h]
        exact hfall _ (calculateAvgConsumption_nonneg counts now)
    · refine ⟨?_, ?_, ?_, ?_⟩
      · simp only [generateForecast, if_neg h]
        exact runWeeks_length _ _ _ _ _ _ _ _ _ _
      · simp only [generateForecast, if_neg h]
        exact runWeeks_weeks _ _ _ _ _ _ _ _ _ _
      · intro hc
        exact Option.noConfusion hc
      · intro predict' hpr hpos hn
        injection hpr with hpr'
        subst hpr'
        simp only [generateForecast, if_neg h]
        have hm : 0 ≤ modelMaxConsumption normParam (getConsumptionHistory counts now 12) :=
          modelMaxConsumption_nonneg hn (fun s hs => getConsumptionHistory_nonneg hs)
        have hc := runWeeks_chain predict season doy
          (modelMaxConsumption normParam (getConsumptionHistory counts now 12))
          item.currentStock hpos hm (weeksToPredict daysAhead) now
          ((takeLast 12 (getConsumptionHistory counts now 12)).map
            (fun hh => ((hh.consumption / modelMaxConsumption normParam (getConsumptionHistory counts now 12),
              season hh.date, doy hh.date) : FeatureVec))) 0 0
        exact (List.chain'_cons'.mp hc).2

theorem claim_C2_witness :
    1 ≤ 7
    ∧ (generateForecast ⟨1, 45, 7⟩ [] none none 7 0 false (fun _ => 0)
        (fun _ => 0)).predictions.length = (7 + 6) / 7 :=
  ⟨by norm_num,
   (claim_C2 ⟨1, 45, 7⟩ [] none none 7 0 false (fun _ => 0) (fun _ => 0) (by norm_num)).1⟩

/-- C2 counterexample: with a trained model that predicts -1 every week
(the final dense layer is linear, so negative outputs are possible and
the code does not clamp them), a 13-count daily-decreasing history and
daysAhead = 14 give cumulativeDemand entries -1 followed by -2: the
series is NOT monotonically non-decreasing. -/
theorem claim_C2_counterexample :
    ((generateForecast ⟨1, 45, 7⟩
        [⟨13, 0, 1, 2024⟩, ⟨12, 1, 1, 2024⟩, ⟨11, 2, 1, 2024⟩, ⟨10, 3, 1, 2024⟩,
         ⟨9, 4, 1, 2024⟩, ⟨8, 5, 1, 2024⟩, ⟨7, 6, 1, 2024⟩, ⟨6, 7, 1, 2024⟩,
         ⟨5, 8, 1, 2024⟩, ⟨4, 9, 1, 2024⟩, ⟨3, 10, 1, 2024⟩, ⟨2, 11, 1, 2024⟩,
         ⟨1, 12, 1, 2024⟩]
        (some (fun _ => -1)) (some 1) 14 12 false (fun _ => 0)
        (fun _ => 0)).predictions.map (fun e => e.cumulativeDemand)) = [-1, -2]
    ∧ ¬ ((-1 : ℚ) ≤ -2) := by
  constructor
  · norm_num [generateForecast, getConsumptionHistory, sortedBy, insertSorted,
      byCountDate, consecutivePairs, List.filter, List.zip, List.zipWith,
      List.filterMap, modelMaxConsumption, jsOrQ, listMax, takeLast,
      weeksToPredict, runWeeks, jsRound2]
  · norm_num

/-- C10: an item whose consumption history in the lookback window is
empty gets the simple_average fallback forecast with zero average and
total demand, all-zero weekly demand entries and null daysUntilStockout,
rather than an error. -/
theorem claim_C10 (item : InventoryItem) (counts : List StockCount)
    (model : Option Predictor) (normParam : Option ℚ) (daysAhead : ℕ)
    (now : ℚ) (busy : Bool) (season doy : ℚ → ℚ)
    (h : getConsumptionHistory counts now 12 = []) :
    (generateForecast item counts model normParam daysAhead now busy season doy).method
      = "simple_average"
    ∧ (generateForecast item counts model normParam daysAhead now busy season doy).summary.avgDailyDemand = 0
    ∧ (generateForecast item counts model normParam daysAhead now busy season doy).summary.totalPredictedDemand = 0
    ∧ (generateForecast item counts model normParam daysAhead now busy season doy).summary.daysUntilStockout = none
    ∧ ∀ e ∈ (generateForecast item counts model normParam daysAhead now busy season doy).predictions,
        e.predictedDemand = 0 := by
  have hlen : (getConsumptionHistory counts now 12).length < 12 := by
    rw [h]
    norm_num
  have hfb : generateForecast item counts model normParam daysAhead now busy season doy
      = fallbackForecast item counts daysAhead now busy := by
    cases model with
    | none => rfl
    | some predict => simp only [generateForecast, if_pos hlen]
  have havg : (calculateAvgConsumption counts now).1 = 0 := by
    simp only [calculateAvgConsumption, h]
    norm_num
  refine ⟨by rw [hfb]; rfl, ?_, ?_, ?_, ?_⟩
  · rw [hfb]
    exact havg
  · rw [hfb]
    show jsRound2 ((calculateAvgConsumption counts now).1 * (daysAhead : ℚ)) = 0
    rw [havg, zero_mul, jsRound2_zero]
  · rw [hfb]
    show (if 0 < (calculateAvgConsumption counts now).1
      then some ⌊item.currentStock / (calculateAvgConsumption counts now).1⌋
      else none) = none
    rw [havg]
    norm_num
  · intro e he
    rw [hfb] at he
    have he' : e ∈ simpleLoop 0 (weeksToPredict daysAhead) now 0 1 := by
      have hpred : (fallbackForecast item counts daysAhead now busy).predictions
          = simpleLoop ((calculateAvgConsumption counts now).1) (weeksToPredict daysAhead) now 0 1 := rfl
      rw [hpred, havg] at he
      exact he
    exact simpleLoop_demand_zero _ _ _ _ e he'

theorem claim_C10_witness :
    getConsumptionHistory [] 0 12 = []
    ∧ (generateForecast ⟨1, 45, 7⟩ [] none none 45 0 false (fun _ => 0)
        (fun _ => 0)).summary.daysUntilStockout = none :=
  ⟨rfl,
   (claim_C10 ⟨1, 45, 7⟩ [] none none 45 0 false (fun _ => 0) (fun _ => 0)
     rfl).2.2.2.1⟩

theorem scoreWeights_sum (p : String) :
    (scoreWeights p).1 + (scoreWeights p).2.1 + (scoreWeights p).2.2 = 1 := by
  unfold scoreWeights
  split
  · norm_num
  · split
    · norm_num
    · norm_num

theorem scoreWeights_nonneg (p : String) :
    0 ≤ (scoreWeights p).1 ∧ 0 ≤ (scoreWeights p).2.1 ∧ 0 ≤ (scoreWeights p).2.2 := by
  unfold scoreWeights
  split
  · norm_num
  · split
    · norm_num
    · norm_num

theorem weighted_sum_bounds {a b c w1 w2 w3 : ℚ}
    (ha0 : 0 ≤ a) (ha1 : a ≤ 1) (hb0 : 0 ≤ b) (hb1 : b ≤ 1)
    (hc0 : 0 ≤ c) (hc1 : c ≤ 1)
    (hw1 : 0 ≤ w1) (hw2 : 0 ≤ w2) (hw3 : 0 ≤ w3)
    (hsum : w1 + w2 + w3 = 1) :
    0 ≤ a * w1 + b * w2 + c * w3 ∧ a * w1 + b * w2 + c * w3 ≤ 1 := by
  have p1 : 0 ≤ a * w1 := mul_nonneg ha0 hw1
  have p2 : 0 ≤ b * w2 := mul_nonneg hb0 hw2
  have p3 : 0 ≤ c * w3 := mul_nonneg hc0 hw3
  have q1 : a * w1 ≤ w1 := by nlinarith
  have q2 : b * w2 ≤ w2 := by nlinarith
  have q3 : c * w3 ≤ w3 := by nlinarith
  constructor
  · linarith
  · linarith

theorem findBestVendor_some {vendors : List Vendor} {itemId : ℕ} {quantity : ℚ}
    {preference : String} {now : ℚ} {opts : List VendorOption}
    (hres : findBestVendor vendors itemId quantity preference now = some opts) :
    opts = sortedBy (fun a b => b.score ≤ a.score)
      ((candidateOptions vendors itemId quantity now).map
        (scoreOption preference
          (listMax ((candidateOptions vendors itemId quantity now).map (fun o => o.price)))
          (listMax ((candidateOptions vendors itemId quantity now).map (fun o => o.leadTime))))) := by
  by_cases he : (candidateOptions vendors itemId quantity now).isEmpty
  · simp only [findBestVendor, he, if_true] at hres
    cases hres
  · simp only [findBestVendor, he, if_false] at hres
    exact (Option.some.injEq _ _).mp hres.symm

theorem mem_candidateOptions {vendors : List Vendor} {itemId : ℕ} {quantity : ℚ}
    {now : ℚ} {o : VendorOption}
    (h : o ∈ candidateOptions vendors itemId quantity now) :
    o.vendor ∈ vendors ∧ o.vendor.isActive = true
    ∧ validPricesFor o.vendor itemId quantity now ≠ []
    ∧ o.leadTime = o.vendor.metrics.avgLeadTime
    ∧ o.reliability = o.vendor.metrics.onTimeDeliveryRate := by
  simp only [candidateOptions, List.mem_filterMap, List.mem_filter] at h
  rcases h with ⟨v, ⟨hv, hact⟩, hmatch⟩
  cases hbt : bestTier v itemId quantity now with
  | none =>
    rw [hbt] at hmatch
    cases hmatch
  | some t =>
    rw [hbt] at hmatch
    cases hmatch
    refine ⟨hv, hact, ?_, rfl, rfl⟩
    intro hnil
    rw [bestTier, hnil] at hbt
    cases hbt

/-- C1: findBestVendor scores every candidate as
priceScore = 1 - price/maxPrice, speedScore = 1 - leadTime/maxLeadTime,
reliabilityScore = reliability/100, combined with the weight triple
(0.6,0.2,0.2) for price, (0.2,0.6,0.2) for speed, (0.33,0.33,0.34)
otherwise; the weights of every profile sum to 1 and, for non-negative
prices and lead times with positive maxima and reliability in [0,100],
every candidate's composite score lies in [0,1]. -/
theorem claim_C1 (vendors : List Vendor) (itemId : ℕ) (quantity : ℚ)
    (preference : String) (now : ℚ) (opts : List VendorOption)
    (hres : findBestVendor vendors itemId quantity preference now = some opts)
    (hvals : ∀ o ∈ candidateOptions vendors itemId quantity now,
      0 ≤ o.price ∧ 0 ≤ o.leadTime ∧ 0 ≤ o.reliability ∧ o.reliability ≤ 100)
    (hmp : 0 < listMax ((candidateOptions vendors itemId quantity now).map (fun o => o.price)))
    (hml : 0 < listMax ((candidateOptions vendors itemId quantity now).map (fun o => o.leadTime))) :
    ((scoreWeights preference).1 + (scoreWeights preference).2.1 + (scoreWeights preference).2.2 = 1)
    ∧ scoreWeights ("price") = (6/10, 2/10, 2/10)
    ∧ scoreWeights ("speed") = (2/10, 6/10, 2/10)
    ∧ (preference ≠ ("price") → preference ≠ ("speed") →
        scoreWeights preference = (33/100, 33/100, 34/100))
    ∧ ∀ o ∈ opts,
        o.score = (1 - o.price / listMax ((candidateOptions vendors itemId quantity now).map (fun c => c.price))) * (scoreWeights preference).1
          + (1 - o.leadTime / listMax ((candidateOptions vendors itemId quantity now).map (fun c => c.leadTime))) * (scoreWeights preference).2.1
          + o.reliability / 100 * (scoreWeights preference).2.2
        ∧ 0 ≤ o.score ∧ o.score ≤ 1 := by
  refine ⟨scoreWeights_sum preference, rfl, rfl, ?_, ?_⟩
  · intro h1 h2
    unfold scoreWeights
    rw [if_neg h1, if_neg h2]
  · intro o ho
    rw [findBestVendor_some hres] at ho
    have ho' := (sortedBy_perm _ _).mem_iff.mp ho
    rcases List.mem_map.mp ho' with ⟨c, hc, rfl⟩
    rcases hvals c hc with ⟨hp0, hl0, hr0, hr100⟩
    have hple : c.price ≤ listMax ((candidateOptions vendors itemId quantity now).map (fun o => o.price)) :=
      le_listMax (List.mem_map_of_mem (fun o => o.price) hc)
    have hlle : c.leadTime ≤ listMax ((candidateOptions vendors itemId quantity now).map (fun o => o.leadTime)) :=
      le_listMax (List.mem_map_of_mem (fun o => o.leadTime) hc)
    refine ⟨rfl, ?_⟩
    have ha0 : 0 ≤ 1 - c.price / listMax ((candidateOptions vendors itemId quantity now).map (fun o => o.price)) := by
      have : c.price / listMax ((candidateOptions vendors itemId quantity now).map (fun o => o.price)) ≤ 1 :=
        (div_le_one hmp).mpr hple
      linarith
    have ha1 : 1 - c.price / listMax ((candidateOptions vendors itemId quantity now).map (fun o => o.price)) ≤ 1 := by
      have : 0 ≤ c.price / listMax ((candidateOptions vendors itemId quantity now).map (fun o => o.price)) :=
        div_nonneg hp0 hmp.le
      linarith
    have hb0 : 0 ≤ 1 - c.leadTime / listMax ((candidateOptions vendors itemId quantity now).map (fun o => o.leadTime)) := by
      have : c.leadTime / listMax ((candidateOptions vendors itemId quantity now).map (fun o => o.leadTime)) ≤ 1 :=
        (div_le_one hml).mpr hlle
      linarith
    have hb1 : 1 - c.leadTime / listMax ((candidateOptions vendors itemId quantity now).map (fun o => o.leadTime)) ≤ 1 := by
      have : 0 ≤ c.leadTime / listMax ((candidateOptions vendors itemId quantity now).map (fun o => o.leadTime)) :=
        div_nonneg hl0 hml.le
      linarith
    have hc0 : 0 ≤ c.reliability / 100 := by positivity
    have hc1 : c.reliability / 100 ≤ 1 := by linarith [(div_le_one (by norm_num : (0:ℚ) < 100)).mpr hr100]
    rcases scoreWeights_nonneg preference with ⟨hw1, hw2, hw3⟩
    exact weighted_sum_bounds ha0 ha1 hb0 hb1 hc0 hc1 hw1 hw2 hw3 (scoreWeights_sum preference)

theorem claim_C1_witness :
    findBestVendor [⟨1, "V", true, [⟨1, 5, 1, none⟩], ⟨5, 95⟩, 0⟩] 1 1 ("price") 0
      = some [⟨⟨1, "V", true, [⟨1, 5, 1, none⟩], ⟨5, 95⟩, 0⟩, 5, 5, 5, 95, 19/100⟩]
    ∧ (scoreWeights ("price")).1 + (scoreWeights ("price")).2.1
        + (scoreWeights ("price")).2.2 = 1 :=
  ⟨by norm_num [findBestVendor, candidateOptions, bestTier, validPricesFor,
      sortedBy, insertSorted, listMax, scoreOption, scoreWeights, List.filter,
      List.filterMap],
   (claim_C1 [⟨1, "V", true, [⟨1, 5, 1, none⟩], ⟨5, 95⟩, 0⟩] 1 1 ("price") 0
      [⟨⟨1, "V", true, [⟨1, 5, 1, none⟩], ⟨5, 95⟩, 0⟩, 5, 5, 5, 95, 19/100⟩]
      (by norm_num [findBestVendor, candidateOptions, bestTier, validPricesFor,
        sortedBy, insertSorted, listMax, scoreOption, scoreWeights, List.filter,
        List.filterMap])
      (by norm_num [candidateOptions, bestTier, validPricesFor, sortedBy,
        insertSorted, List.filter, List.filterMap])
      (by norm_num [candidateOptions, bestTier, validPricesFor, sortedBy,
        insertSorted, listMax, List.filter, List.filterMap])
      (by norm_num [candidateOptions, bestTier, validPricesFor, sortedBy,
        insertSorted, listMax, List.filter, List.filterMap])).1⟩

/-- C9 (amended): vendors with no valid price tier are excluded from the
candidate set entirely (every returned option's vendor is an active
listed vendor with a non-empty valid tier list, and a vendor whose valid
tier list is empty never appears); with an empty candidate set
findBestVendor returns null (Option.none) — not an empty list, and not
an error. -/
theorem claim_C9 (vendors : List Vendor) (itemId : ℕ) (quantity : ℚ)
    (preference : String) (now : ℚ) :
    (candidateOptions vendors itemId quantity now = [] →
      findBestVendor vendors itemId quantity preference now = none)
    ∧ (∀ opts, findBestVendor vendors itemId quantity preference now = some opts →
        ∀ o ∈ opts, o.vendor ∈ vendors ∧ o.vendor.isActive = true
          ∧ validPricesFor o.vendor itemId quantity now ≠ [])
    ∧ (∀ v ∈ vendors, validPricesFor v itemId quantity now = [] →
        ∀ opts, findBestVendor vendors itemId quantity preference now = some opts →
          ∀ o ∈ opts, o.vendor ≠ v) := by
  refine ⟨?_, ?_, ?_⟩
  · intro he
    simp only [findBestVendor, he]
    rfl
  · intro opts hres o ho
    rw [findBestVendor_some hres] at ho
    have ho' := (sortedBy_perm _ _).mem_iff.mp ho
    rcases List.mem_map.mp ho' with ⟨c, hc, rfl⟩
    exact ⟨(mem_candidateOptions hc).1, (mem_candidateOptions hc).2.1,
      (mem_candidateOptions hc).2.2.1⟩
  · intro v _ hnil opts hres o ho hov
    rw [findBestVendor_some hres] at ho
    have ho' := (sortedBy_perm _ _).mem_iff.mp ho
    rcases List.mem_map.mp ho' with ⟨c, hc, rfl⟩
    have := (mem_candidateOptions hc).2.2.1
    rw [show (scoreOption preference _ _ c).vendor = c.vendor from rfl] at hov
    rw [hov] at this
    exact this hnil

/-- C9 counterexample: with one active vendor that has no price tiers the
candidate set is empty and findBestVendor returns null, not the empty
ranking list the claim states. -/
theorem claim_C9_counterexample :
    findBestVendor [⟨1, "V", true, [], ⟨5, 95⟩, 0⟩] 1 1 ("price") 0 = none
    ∧ ¬ (findBestVendor [⟨1, "V", true, [], ⟨5, 95⟩, 0⟩] 1 1 ("price") 0
        = some ([] : List VendorOption)) := by
  refine ⟨rfl, ?_⟩
  intro h
  rw [show findBestVendor [⟨1, "V", true, [], ⟨5, 95⟩, 0⟩] 1 1 ("price") 0
    = none from rfl] at h
  cases h

theorem claim_C9_witness :
    candidateOptions [⟨2, "W", true, [], ⟨5, 95⟩, 0⟩] 1 1 0 = []
    ∧ findBestVendor [⟨2, "W", true, [], ⟨5, 95⟩, 0⟩] 1 1 ("speed") 0 = none :=
  ⟨rfl, (claim_C9 [⟨2, "W", true, [], ⟨5, 95⟩, 0⟩] 1 1 ("speed") 0).1 rfl⟩

/-- C4 (amended): optimizeBulkOrder returns a split-order plan
(splitOrderRequired = true) iff the full-coverage candidate set is empty
AND every requested item has at least one eligible active vendor — when
some item is unsourceable the result is an unsourceable error report,
not a split plan; whenever a full-coverage vendor exists the primary
recommendation is a member of the full-coverage set and
splitOrderRequired = false. -/
theorem claim_C4 (items : List ItemQty) (vendors : List Vendor)
    (preference : String) (now : ℚ) :
    ((optimizeBulkOrder items vendors preference now).splitOrderRequired = some true
      ↔ vendorCoverage vendors items now = []
        ∧ ∀ it ∈ items, eligibleVendorsFor (vendors.filter (fun v => v.isActive)) it now ≠ [])
    ∧ (vendorCoverage vendors items now ≠ [] →
        (optimizeBulkOrder items vendors preference now).splitOrderRequired = some false
        ∧ ∃ r, (optimizeBulkOrder items vendors preference now).recommendation = some r
            ∧ r.vendorId ∈ (vendorCoverage vendors items now).map (fun c => c.vendorId)) := by
  by_cases hcov : vendorCoverage vendors items now = []
  · have he : (vendorCoverage vendors items now).isEmpty = true := List.isEmpty_iff.mpr hcov
    have hob : optimizeBulkOrder items vendors preference now
        = findVendorCombinations items (vendors.filter (fun v => v.isActive)) preference now := by
      simp only [optimizeBulkOrder, he, if_true]
    refine ⟨?_, fun hne => absurd hcov hne⟩
    rw [hob]
    by_cases hun : (items.filter (fun it =>
        (eligibleVendorsFor (vendors.filter (fun v => v.isActive)) it now).isEmpty)).isEmpty
    · have hsr : (findVendorCombinations items (vendors.filter (fun v => v.isActive)) preference now).splitOrderRequired
          = some true := by
        simp only [findVendorCombinations, hun, if_true]
      rw [hsr]
      constructor
      · intro _
        refine ⟨hcov, ?_⟩
        intro it hit hnil
        have hf := List.filter_eq_nil_iff.mp (List.isEmpty_iff.mp hun) it hit
        apply hf
        rw [hnil]
        rfl
      · intro _
        rfl
    · have hsr : (findVendorCombinations items (vendors.filter (fun v => v.isActive)) preference now).splitOrderRequired
          = none := by
        simp only [findVendorCombinations, hun, Bool.false_eq_true, if_false]
      rw [hsr]
      constructor
      · intro h
        cases h
      · rintro ⟨-, hall⟩
        exfalso
        apply hun
        apply List.isEmpty_iff.mpr
        apply List.filter_eq_nil_iff.mpr
        intro it hit hemp
        exact hall it hit (List.isEmpty_iff.mp hemp)
  · have he : (vendorCoverage vendors items now).isEmpty = false := by
      cases hl : vendorCoverage vendors items now with
      | nil => exact absurd hl hcov
      | cons a t => rfl
    have h1 : (optimizeBulkOrder items vendors preference now).splitOrderRequired
        = some false := by
      simp only [optimizeBulkOrder, he, Bool.false_eq_true, if_false]
    have h2 : (optimizeBulkOrder items vendors preference now).recommendation
        = (sortedBy (fun a b => b.score ≤ a.score)
            ((vendorCoverage vendors items now).map
              (scoreCoverage preference
                (listMax ((vendorCoverage vendors items now).map (fun c => c.totalCost)))
                (listMax ((vendorCoverage vendors items now).map (fun c => c.avgLeadTime)))))).head? := by
      simp only [optimizeBulkOrder, he, Bool.false_eq_true, if_false]
    refine ⟨?_, fun _ => ⟨h1, ?_⟩⟩
    · rw [h1]
      constructor
      · intro h
        injection h with h'
        cases h'
      · rintro ⟨hc, -⟩
        exact absurd hc hcov
    · cases hr : sortedBy (fun a b => b.score ≤ a.score)
          ((vendorCoverage vendors items now).map
            (scoreCoverage preference
              (listMax ((vendorCoverage vendors items now).map (fun c => c.totalCost)))
              (listMax ((vendorCoverage vendors items now).map (fun c => c.avgLeadTime))))) with
      | nil =>
        exfalso
        have hlen := (sortedBy_perm (fun a b => decide (b.score ≤ a.score))
          ((vendorCoverage vendors items now).map
            (scoreCoverage preference
              (listMax ((vendorCoverage vendors items now).map (fun c => c.totalCost)))
              (listMax ((vendorCoverage vendors items now).map (fun c => c.avgLeadTime)))))).length_eq
        rw [hr] at hlen
        simp only [List.length_nil, List.length_map] at hlen
        exact hcov (List.length_eq_zero.mp hlen.symm)
      | cons r t =>
        refine ⟨r, ?_, ?_⟩
        · rw [h2, hr]
          rfl
        · have hrm : r ∈ (vendorCoverage vendors items now).map
              (scoreCoverage preference
                (listMax ((vendorCoverage vendors items now).map (fun c => c.totalCost)))
                (listMax ((vendorCoverage vendors items now).map (fun c => c.avgLeadTime)))) := by
            apply (sortedBy_perm _ _).mem_iff.mp
            rw [hr]
            exact List.mem_cons_self r t
          rcases List.mem_map.mp hrm with ⟨c, hc, rfl⟩
          exact List.mem_map_of_mem (fun c => c.vendorId) hc

/-- C4 counterexample: one item no vendor can supply — the full-coverage
set is empty, yet the optimizer returns the unsourceable error report
(splitOrderRequired absent), not a split-order plan, refuting the
claimed "split order iff no full-coverage vendor". -/
theorem claim_C4_counterexample :
    vendorCoverage [⟨1, "V", true, [], ⟨5, 95⟩, 0⟩] [⟨1, 2⟩] 0 = []
    ∧ ¬ ((optimizeBulkOrder [⟨1, 2⟩] [⟨1, "V", true, [], ⟨5, 95⟩, 0⟩] ("price") 0).splitOrderRequired
        = some true) := by
  refine ⟨rfl, ?_⟩
  intro h
  rw [show (optimizeBulkOrder [⟨1, 2⟩] [⟨1, "V", true, [], ⟨5, 95⟩, 0⟩] ("price") 0).splitOrderRequired
    = none from rfl] at h
  cases h

theorem claim_C4_witness :
    vendorCoverage [⟨1, "W", true, [⟨1, 5, 1, none⟩], ⟨5, 95⟩, 0⟩] [⟨1, 1⟩] 0 ≠ []
    ∧ (optimizeBulkOrder [⟨1, 1⟩] [⟨1, "W", true, [⟨1, 5, 1, none⟩], ⟨5, 95⟩, 0⟩] ("price") 0).splitOrderRequired
      = some false :=
  ⟨by norm_num [vendorCoverage, coverageFor, vendorItemPrices, bestTier,
      validPricesFor, sortedBy, insertSorted, List.filter, List.filterMap],
   ((claim_C4 [⟨1, 1⟩] [⟨1, "W", true, [⟨1, 5, 1, none⟩], ⟨5, 95⟩, 0⟩] ("price") 0).2
     (by norm_num [vendorCoverage, coverageFor, vendorItemPrices, bestTier,
       validPricesFor, sortedBy, insertSorted, List.filter, List.filterMap])).1⟩

/-- C8 (amended): in the split-order fallback each item is independently
assigned options[0] after the preference sort; for "price" that is a
cheapest eligible vendor, for "speed" a fastest one, but for any other
preference (including "balanced") NO sort happens and the first eligible
vendor in vendor-list order is taken, which need not be the cheapest. -/
theorem claim_C8 (items : List ItemQty) (vendors : List Vendor)
    (preference : String) (now : ℚ)
    (h : ∀ it ∈ items, eligibleVendorsFor vendors it now ≠ []) :
    (findVendorCombinations items vendors preference now).assignments
      = some (items.filterMap (fun it =>
          (firstChoice preference (eligibleVendorsFor vendors it now)).map
            (fun best => ({ itemId := it.itemId, vendorName := best.vendorName,
                            price := best.price } : Assignment))))
    ∧ ∀ options : List EligibleVendor, options ≠ [] →
        (∃ b, firstChoice ("price") options = some b ∧ b ∈ options
          ∧ ∀ e ∈ options, b.price ≤ e.price)
        ∧ (∃ b, firstChoice ("speed") options = some b ∧ b ∈ options
          ∧ ∀ e ∈ options, b.leadTime ≤ e.leadTime)
        ∧ (∀ p, p ≠ ("price") → p ≠ ("speed") →
            firstChoice p options = options.head?) := by
  constructor
  · have hun : (items.filter (fun it => (eligibleVendorsFor vendors it now).isEmpty)).isEmpty = true := by
      apply List.isEmpty_iff.mpr
      apply List.filter_eq_nil_iff.mpr
      intro it hit hemp
      exact h it hit (List.isEmpty_iff.mp hemp)
    have ha : (findVendorCombinations items vendors preference now).assignments
        = some (List.map
            (fun p => ({ itemId := p.1.itemId, vendorName := p.2.vendorName,
                         price := p.2.price } : Assignment))
            (items.filterMap (fun it =>
              Option.map (fun best => (it, best))
                (firstChoice preference (eligibleVendorsFor vendors it now))))) := by
      simp only [findVendorCombinations, hun, if_true]
    rw [ha, List.map_filterMap]
    refine congrArg some (congrFun (congrArg List.filterMap (funext fun it => ?_)) items)
    rw [Option.map_map]
    rfl
  · intro options hne
    refine ⟨?_, ?_, ?_⟩
    · have hs : firstChoice ("price") options
          = (sortedBy (fun a b => a.price ≤ b.price) options).head? := by
        simp [firstChoice, sortOptions]
      rcases @sortedBy_head_min EligibleVendor
        (fun a b => decide (a.price ≤ b.price))
        (fun a b c hab hbc => by
          simp only [decide_eq_true_eq] at hab hbc ⊢
          exact le_trans hab hbc)
        (fun a b => by
          simp only [decide_eq_true_eq]
          exact le_total a.price b.price)
        options hne with ⟨b, t, hbt, hbm, hble⟩
      refine ⟨b, ?_, hbm, fun e he => of_decide_eq_true (hble e he)⟩
      rw [hs, hbt]
      rfl
    · have hs : firstChoice ("speed") options
          = (sortedBy (fun a b => a.leadTime ≤ b.leadTime) options).head? := by
        simp [firstChoice, sortOptions]
      rcases @sortedBy_head_min EligibleVendor
        (fun a b => decide (a.leadTime ≤ b.leadTime))
        (fun a b c hab hbc => by
          simp only [decide_eq_true_eq] at hab hbc ⊢
          exact le_trans hab hbc)
        (fun a b => by
          simp only [decide_eq_true_eq]
          exact le_total a.leadTime b.leadTime)
        options hne with ⟨b, t, hbt, hbm, hble⟩
      refine ⟨b, ?_, hbm, fun e he => of_decide_eq_true (hble e he)⟩
      rw [hs, hbt]
      rfl
    · intro p hp1 hp2
      unfold firstChoice sortOptions
      rw [if_neg hp1, if_neg hp2]

/-- C8 counterexample: two vendors both offering item 1, the first
listed at price 10, the second at price 5; with preference "balanced"
the fallback assigns vendor A at price 10 even though a cheaper eligible
vendor (price 5) exists — "balanced" does not default to the
price-sorted choice. -/
theorem claim_C8_counterexample :
    (findVendorCombinations [⟨1, 1⟩]
        [⟨1, "A", true, [⟨1, 10, 1, none⟩], ⟨5, 95⟩, 0⟩,
         ⟨2, "B", true, [⟨1, 5, 1, none⟩], ⟨7, 90⟩, 0⟩] ("balanced") 0).assignments
      = some [⟨1, "A", 10⟩]
    ∧ (eligibleVendorsFor
        [⟨1, "A", true, [⟨1, 10, 1, none⟩], ⟨5, 95⟩, 0⟩,
         ⟨2, "B", true, [⟨1, 5, 1, none⟩], ⟨7, 90⟩, 0⟩] ⟨1, 1⟩ 0).map (fun e => e.price)
      = [10, 5]
    ∧ ¬ ((10 : ℚ) ≤ 5) := by
  have hbp : (("balanced" : String) = "price") = False := by simp
  have hbs : (("balanced" : String) = "speed") = False := by simp
  refine ⟨?_, ?_, by norm_num⟩
  · norm_num [findVendorCombinations, eligibleVendorsFor, bestTier,
      validPricesFor, sortedBy, insertSorted, firstChoice, sortOptions,
      addToOrders, List.filter, List.filterMap, hbp, hbs]
  · norm_num [eligibleVendorsFor, bestTier, validPricesFor, sortedBy,
      insertSorted, List.filter, List.filterMap]

theorem claim_C8_witness :
    (findVendorCombinations [⟨1, 1⟩]
        [⟨1, "A", true, [⟨1, 10, 1, none⟩], ⟨5, 95⟩, 0⟩,
         ⟨2, "B", true, [⟨1, 5, 1, none⟩], ⟨7, 90⟩, 0⟩] ("balanced") 0).assignments
      = some (([⟨1, 1⟩] : List ItemQty).filterMap (fun it =>
          (firstChoice ("balanced")
            (eligibleVendorsFor
              [⟨1, "A", true, [⟨1, 10, 1, none⟩], ⟨5, 95⟩, 0⟩,
               ⟨2, "B", true, [⟨1, 5, 1, none⟩], ⟨7, 90⟩, 0⟩] it 0)).map
            (fun best => ({ itemId := it.itemId, vendorName := best.vendorName,
                            price := best.price } : Assignment)))) :=
  (claim_C8 [⟨1, 1⟩]
    [⟨1, "A", true, [⟨1, 10, 1, none⟩], ⟨5, 95⟩, 0⟩,
     ⟨2, "B", true, [⟨1, 5, 1, none⟩], ⟨7, 90⟩, 0⟩] ("balanced") 0
    (by
      intro it hit
      rw [List.mem_singleton.mp hit]
      norm_num [eligibleVendorsFor, bestTier, validPricesFor, sortedBy,
        insertSorted, List.filter, List.filterMap]
      exact List.cons_ne_nil _ _)).1
